import Mathlib

/-!
Verification of the geometry reprojection pipeline of the SeedSmart server
(src/server/src/helpers/geom_transfer.ts), as consumed by the sowingmap
endpoint of src/server/src/controllers/DashboardController.ts.

The TypeScript code operates on dynamically typed JSON values, so the shallow
embedding works over `JVal`, a model of the JavaScript values that can flow
through these functions: undefined, null, booleans, numbers, strings, arrays
and plain objects (ordered association lists of string keys, as JavaScript
object literals and spreads preserve insertion order of string keys).

Numbers are modelled as rationals. The projection library proj4 is an
external npm dependency (not part of this repository); the value
`toWGS84.forward`, which maps a pair of coordinate values to a pair of
numbers, is therefore a parameter `fwd` of every definition that uses it,
and all theorems hold for every choice of `fwd`.
-/

/-- Model of a JavaScript/JSON value as it flows through geom_transfer.ts. -/
inductive JVal where
  | jundef : JVal
  | jnull : JVal
  | jbool : Bool → JVal
  | jnum : ℚ → JVal
  | jstr : String → JVal
  | jarr : List JVal → JVal
  | jobj : List (String × JVal) → JVal

namespace JVal

/-- JavaScript truthiness: undefined, null, false, 0 and the empty string are
falsy; every object and array is truthy. (NaN, the remaining falsy value, is
not representable over rationals and never arises in the modelled claims.) -/
def truthy : JVal → Bool
  | jundef => false
  | jnull => false
  | jbool b => b
  | jnum q => !(q == 0)
  | jstr s => !(s == "")
  | jarr _ => true
  | jobj _ => true

/-- First-occurrence lookup in an object field list (JavaScript objects have
unique keys; the model reads the first occurrence). -/
def lookupF : List (String × JVal) → String → Option JVal
  | [], _ => none
  | (k', v) :: rest, k => if k' = k then some v else lookupF rest k

/-- Property access `o[k]`: the stored value on an object, undefined on a
missing key and on every non-object (the code only dereferences after
truthiness guards, so the throwing cases of null/undefined are unreachable). -/
def getF (o : JVal) (k : String) : JVal :=
  match o with
  | jobj fs => (lookupF fs k).getD jundef
  | _ => jundef

/-- Replace the value at key `k` in place if present (keeping its position,
as object spread with an override does), else append the key at the end. -/
def setFields : List (String × JVal) → String → JVal → List (String × JVal)
  | [], k, v => [(k, v)]
  | (k', v') :: rest, k, v =>
      if k' = k then (k, v) :: rest else (k', v') :: setFields rest k v

/-- Model of `{...o, k: v}` (and of assignment `o[k] = v` on the fresh copy):
object spread of a primitive contributes no own enumerable properties, so a
non-object input yields the one-field object. -/
def setField (o : JVal) (k : String) (v : JVal) : JVal :=
  match o with
  | jobj fs => jobj (setFields fs k v)
  | _ => jobj [(k, v)]

/-- Model of `delete o[k]`. -/
def delField (o : JVal) (k : String) : JVal :=
  match o with
  | jobj fs => jobj (fs.filter (fun p => !(p.1 == k)))
  | o => o

/-- Whether an object carries key `k` as an own property. -/
def hasField (o : JVal) (k : String) : Bool :=
  match o with
  | jobj fs => fs.any (fun p => p.1 == k)
  | _ => false

/-- Strict equality `v === s` against a string literal: true exactly on the
string with those contents. -/
def tagIs (v : JVal) (s : String) : Bool :=
  match v with
  | jstr t => t == s
  | _ => false

/-- Whether the value is `undefined` (the test `z !== undefined`). -/
def isUndef : JVal → Bool
  | jundef => true
  | _ => false

/-- `Array.isArray`. -/
def isArr : JVal → Bool
  | jarr _ => true
  | _ => false

end JVal

theorem JVal.one_le_sizeOf (v : JVal) : 1 ≤ sizeOf v := by
  cases v <;> simp

theorem JVal.lookupF_sizeOf {fs : List (String × JVal)} {k : String} {v : JVal}
    (h : JVal.lookupF fs k = some v) : sizeOf v < sizeOf fs := by
  induction fs with
  | nil => simp [JVal.lookupF] at h
  | cons p rest ih =>
    obtain ⟨k', v'⟩ := p
    rw [JVal.lookupF] at h
    by_cases hk : k' = k
    · simp [hk] at h
      subst h
      simp
      omega
    · simp [hk] at h
      have := ih h
      simp
      omega

theorem JVal.getF_sizeOf_le (o : JVal) (k : String) : sizeOf (JVal.getF o k) ≤ sizeOf o := by
  cases o with
  | jobj fs =>
    rw [JVal.getF]
    cases h : JVal.lookupF fs k with
    | none => simp [JVal.one_le_sizeOf, Nat.le_add_right]
    | some v =>
      have := JVal.lookupF_sizeOf h
      simp
      omega
  | jundef => simp [JVal.getF]
  | jnull => simp [JVal.getF]
  | jbool b => simp [JVal.getF]
  | jnum q => simp [JVal.getF]
  | jstr s => simp [JVal.getF]
  | jarr xs => simp [JVal.getF]

/-!
The functions of geom_transfer.ts. Every definition takes the parameter
`fwd`, the model of `toWGS84.forward`: it receives the two values that the
code places in the array passed to proj4 and returns the numeric
(longitude, latitude) pair that proj4 destructures. Fallible code is
embedded in `Except String`: a thrown TypeError becomes `.error`.
-/

/-- Model of `transformPosition` (geom_transfer.ts lines 29 to 34):
destructure `[x, y, z] = p`, project the horizontal pair, and keep the third
component exactly when it is not undefined. Destructuring a non-array value
throws in JavaScript (strings, the only other iterable primitive, never
denote positions), which the model reports as an error. -/
def transformPosition (fwd : JVal → JVal → ℚ × ℚ) (p : JVal) : Except String JVal :=
  match p with
  | .jarr xs =>
    let x := xs.getD 0 .jundef
    let y := xs.getD 1 .jundef
    let z := xs.getD 2 .jundef
    let q := fwd x y
    .ok (if JVal.isUndef z then .jarr [.jnum q.1, .jnum q.2]
         else .jarr [.jnum q.1, .jnum q.2, z])
  | _ => .error "TypeError: position is not iterable"

/-- Element-wise action of a fallible function on a list, failing on the
first error, as a thrown exception inside `Array.prototype.map` does. -/
def mapMEx (f : JVal → Except String JVal) : List JVal → Except String (List JVal)
  | [] => .ok []
  | x :: xs =>
    match f x with
    | .ok y =>
      match mapMEx f xs with
      | .ok ys => .ok (y :: ys)
      | .error e => .error e
    | .error e => .error e

/-- Model of `coords.map(f)`: calling `.map` on a non-array value throws a
TypeError. -/
def mapExceptArr (f : JVal → Except String JVal) (v : JVal) : Except String JVal :=
  match v with
  | .jarr xs =>
    match mapMEx f xs with
    | .ok ys => .ok (.jarr ys)
    | .error e => .error e
  | _ => .error "TypeError: coords.map is not a function"

/-- Model of `transformCoords` (geom_transfer.ts lines 9 to 27): dispatch on
the geometry-kind tag; the `switch` cases match exactly the string values of
the case labels, so a non-string tag always reaches `default`. The explicit
`GeometryCollection` case of the source returns `coords` unchanged, the same
result as `default`; both are the final branch here. -/
def transformCoords (fwd : JVal → JVal → ℚ × ℚ) (ty coords : JVal) : Except String JVal :=
  if JVal.tagIs ty "Point" then transformPosition fwd coords
  else if JVal.tagIs ty "MultiPoint" || JVal.tagIs ty "LineString" then
    mapExceptArr (transformPosition fwd) coords
  else if JVal.tagIs ty "MultiLineString" || JVal.tagIs ty "Polygon" then
    mapExceptArr (mapExceptArr (transformPosition fwd)) coords
  else if JVal.tagIs ty "MultiPolygon" then
    mapExceptArr (mapExceptArr (mapExceptArr (transformPosition fwd))) coords
  else .ok coords

/-- The non-collection branch of `transformGeometryTo4326` (geom_transfer.ts
lines 44 to 47): `{...geom, coordinates: transformCoords(geom.type,
geom.coordinates)}`. -/
def transformPlainGeometry (fwd : JVal → JVal → ℚ × ℚ) (geom : JVal) : Except String JVal :=
  match transformCoords fwd (JVal.getF geom "type") (JVal.getF geom "coordinates") with
  | .ok c => .ok (JVal.setField geom "coordinates" c)
  | .error e => .error e

mutual

/-- Model of `transformGeometryTo4326` (geom_transfer.ts lines 36 to 48):
falsy input passes through; a value tagged `GeometryCollection` whose
`geometries` is an array is rebuilt as a fresh object holding only the tag
and the recursively transformed children; anything else is shallow-copied
with `coordinates` replaced. -/
def transformGeometryTo4326 (fwd : JVal → JVal → ℚ × ℚ) (geom : JVal) : Except String JVal :=
  if JVal.truthy geom = false then .ok geom
  else
    match hg : JVal.getF geom "geometries" with
    | .jarr gs =>
      if JVal.tagIs (JVal.getF geom "type") "GeometryCollection" then
        match transformGeometryList fwd gs with
        | .ok ys =>
          .ok (.jobj [("type", .jstr "GeometryCollection"), ("geometries", .jarr ys)])
        | .error e => .error e
      else transformPlainGeometry fwd geom
    | _ => transformPlainGeometry fwd geom
termination_by sizeOf geom
decreasing_by
  simp_wf
  have h := JVal.getF_sizeOf_le geom "geometries"
  rw [hg] at h
  simp at h
  omega

/-- Model of `geom.geometries.map(transformGeometryTo4326)`. -/
def transformGeometryList (fwd : JVal → JVal → ℚ × ℚ) (gs : List JVal) :
    Except String (List JVal) :=
  match gs with
  | [] => .ok []
  | g :: rest =>
    match transformGeometryTo4326 fwd g with
    | .ok y =>
      match transformGeometryList fwd rest with
      | .ok ys => .ok (y :: ys)
      | .error e => .error e
    | .error e => .error e
termination_by sizeOf gs
decreasing_by
  all_goals simp_wf
  all_goals omega

end

/-- The bbox block shared verbatim by `transformFeatureTo4326` (geom_transfer.ts
lines 53 to 58) and `transformFeatureCollectionTo4326` (lines 68 to 73): when
the source bbox is an array of length at least four, its first four entries
are read as two corners, each corner is projected, and `out.bbox` is assigned
the four-element array of the projected corners; otherwise `out` is left
alone. -/
def reprojectBbox (fwd : JVal → JVal → ℚ × ℚ) (bboxSrc out : JVal) : JVal :=
  match bboxSrc with
  | .jarr bs =>
    if 4 ≤ bs.length then
      let lo := fwd (bs.getD 0 .jundef) (bs.getD 1 .jundef)
      let hi := fwd (bs.getD 2 .jundef) (bs.getD 3 .jundef)
      JVal.setField out "bbox" (.jarr [.jnum lo.1, .jnum lo.2, .jnum hi.1, .jnum hi.2])
    else out
  | _ => out

/-- The statement `if (out.crs) delete out.crs` shared by geom_transfer.ts
lines 60 and 74: the crs key is removed only when its value is truthy. -/
def dropCrs (out : JVal) : JVal :=
  if JVal.truthy (JVal.getF out "crs") then JVal.delField out "crs" else out

/-- Model of `transformFeatureTo4326` (geom_transfer.ts lines 49 to 62):
falsy or non-Feature input passes through; a Feature is shallow-copied with
its geometry transformed, its bbox (read from the original feature)
reprojected by corners, and a truthy crs removed. -/
def transformFeatureTo4326 (fwd : JVal → JVal → ℚ × ℚ) (feature : JVal) : Except String JVal :=
  if JVal.truthy feature = false ∨ ¬ JVal.tagIs (JVal.getF feature "type") "Feature" then
    .ok feature
  else
    match transformGeometryTo4326 fwd (JVal.getF feature "geometry") with
    | .ok g =>
      let out := JVal.setField feature "geometry" g
      .ok (dropCrs (reprojectBbox fwd (JVal.getF feature "bbox") out))
    | .error e => .error e

/-- The fallback chain at the end of `transformFeatureCollectionTo4326`
(geom_transfer.ts lines 77 to 81): a value tagged Feature is delegated to
`transformFeatureTo4326`; a value with truthy `type` and `coordinates` is
treated as a bare geometry; anything else passes through unchanged. -/
def transformFCFallback (fwd : JVal → JVal → ℚ × ℚ) (fc : JVal) : Except String JVal :=
  if JVal.tagIs (JVal.getF fc "type") "Feature" then transformFeatureTo4326 fwd fc
  else if JVal.truthy (JVal.getF fc "type") && JVal.truthy (JVal.getF fc "coordinates") then
    transformGeometryTo4326 fwd fc
  else .ok fc

/-- Model of `transformFeatureCollectionTo4326` (geom_transfer.ts lines 64 to
82): falsy input passes through; a value tagged FeatureCollection whose
`features` is an array is shallow-copied with the features mapped through
`transformFeatureTo4326`, the bbox (read from the original value) reprojected
by corners, and a truthy crs removed; otherwise the fallback chain runs. -/
def transformFeatureCollectionTo4326 (fwd : JVal → JVal → ℚ × ℚ) (fc : JVal) :
    Except String JVal :=
  if JVal.truthy fc = false then .ok fc
  else
    match JVal.getF fc "features" with
    | .jarr xs =>
      if JVal.tagIs (JVal.getF fc "type") "FeatureCollection" then
        match mapMEx (transformFeatureTo4326 fwd) xs with
        | .ok ys =>
          let out := JVal.setField fc "features" (.jarr ys)
          .ok (dropCrs (reprojectBbox fwd (JVal.getF fc "bbox") out))
        | .error e => .error e
      else transformFCFallback fwd fc
    | _ => transformFCFallback fwd fc

/-!
Basic facts about field access, update and removal, used throughout the
claim proofs.
-/

theorem JVal.lookupF_setFields_self (fs : List (String × JVal)) (k : String) (v : JVal) :
    JVal.lookupF (JVal.setFields fs k v) k = some v := by
  induction fs with
  | nil => simp [JVal.setFields, JVal.lookupF]
  | cons p rest ih =>
    obtain ⟨k', v'⟩ := p
    rw [JVal.setFields]
    by_cases hk : k' = k
    · simp [hk, JVal.lookupF]
    · simp [hk, JVal.lookupF, ih]

theorem JVal.lookupF_setFields_ne (fs : List (String × JVal)) (k k2 : String) (v : JVal)
    (h : k ≠ k2) : JVal.lookupF (JVal.setFields fs k v) k2 = JVal.lookupF fs k2 := by
  induction fs with
  | nil => simp [JVal.setFields, JVal.lookupF, h]
  | cons p rest ih =>
    obtain ⟨k', v'⟩ := p
    rw [JVal.setFields]
    by_cases hk : k' = k
    · subst hk
      simp [JVal.lookupF, h]
    · simp [hk, JVal.lookupF, ih]

theorem JVal.getF_setField_self (o : JVal) (k : String) (v : JVal) :
    JVal.getF (JVal.setField o k v) k = v := by
  cases o <;> simp [JVal.setField, JVal.getF, JVal.lookupF, JVal.lookupF_setFields_self]

theorem JVal.getF_setField_ne (o : JVal) (k k2 : String) (v : JVal) (h : k ≠ k2) :
    JVal.getF (JVal.setField o k v) k2 = JVal.getF o k2 := by
  cases o <;> simp [JVal.setField, JVal.getF, JVal.lookupF, h, JVal.lookupF_setFields_ne _ _ _ _ h]

theorem JVal.hasField_setField_ne (o : JVal) (k k2 : String) (v : JVal) (h : k ≠ k2) :
    JVal.hasField (JVal.setField o k v) k2 = JVal.hasField o k2 := by
  cases o with
  | jobj fs =>
    simp only [JVal.setField, JVal.hasField]
    induction fs with
    | nil => simp [JVal.setFields, h]
    | cons p rest ih =>
      obtain ⟨k', v'⟩ := p
      rw [JVal.setFields]
      by_cases hk : k' = k
      · subst hk
        simp [h]
      · simp only [hk, if_false, List.any_cons, ih]
  | jundef => simp [JVal.setField, JVal.hasField, h]
  | jnull => simp [JVal.setField, JVal.hasField, h]
  | jbool b => simp [JVal.setField, JVal.hasField, h]
  | jnum q => simp [JVal.setField, JVal.hasField, h]
  | jstr s => simp [JVal.setField, JVal.hasField, h]
  | jarr xs => simp [JVal.setField, JVal.hasField, h]

theorem JVal.getF_delField_ne (o : JVal) (k k2 : String) (h : k ≠ k2) :
    JVal.getF (JVal.delField o k) k2 = JVal.getF o k2 := by
  cases o with
  | jobj fs =>
    simp only [JVal.delField, JVal.getF]
    induction fs with
    | nil => simp
    | cons p rest ih =>
      obtain ⟨k', v'⟩ := p
      by_cases hk : k' = k
      · subst hk
        simp [List.filter_cons, JVal.lookupF, h, ih]
      · by_cases hk2 : k' = k2
        · subst hk2
          simp [List.filter_cons, JVal.lookupF, hk]
        · simp [List.filter_cons, JVal.lookupF, hk, hk2, ih]
  | jundef => simp [JVal.delField]
  | jnull => simp [JVal.delField]
  | jbool b => simp [JVal.delField]
  | jnum q => simp [JVal.delField]
  | jstr s => simp [JVal.delField]
  | jarr xs => simp [JVal.delField]

theorem JVal.hasField_delField_self (o : JVal) (k : String) :
    JVal.hasField (JVal.delField o k) k = false := by
  cases o with
  | jobj fs =>
    simp only [JVal.delField, JVal.hasField]
    induction fs with
    | nil => simp
    | cons p rest ih =>
      obtain ⟨k', v'⟩ := p
      by_cases hk : k' = k <;> simp [hk, ih]
  | jundef => simp [JVal.delField, JVal.hasField]
  | jnull => simp [JVal.delField, JVal.hasField]
  | jbool b => simp [JVal.delField, JVal.hasField]
  | jnum q => simp [JVal.delField, JVal.hasField]
  | jstr s => simp [JVal.delField, JVal.hasField]
  | jarr xs => simp [JVal.delField, JVal.hasField]

theorem JVal.truthy_of_getF {o : JVal} {k : String} {v : JVal}
    (h : JVal.getF o k = v) (hv : v ≠ .jundef) : JVal.truthy o = true := by
  cases o <;> simp_all [JVal.getF, JVal.truthy]

theorem getF_reprojectBbox_ne (fwd : JVal → JVal → ℚ × ℚ) (b o : JVal) (k : String)
    (h : k ≠ "bbox") : JVal.getF (reprojectBbox fwd b o) k = JVal.getF o k := by
  cases b <;> simp only [reprojectBbox]
  split
  · rw [JVal.getF_setField_ne _ _ _ _ (by simpa using h.symm)]
  · rfl

theorem hasField_reprojectBbox_ne (fwd : JVal → JVal → ℚ × ℚ) (b o : JVal) (k : String)
    (h : k ≠ "bbox") : JVal.hasField (reprojectBbox fwd b o) k = JVal.hasField o k := by
  cases b <;> simp only [reprojectBbox]
  split
  · rw [JVal.hasField_setField_ne _ _ _ _ (by simpa using h.symm)]
  · rfl

theorem getF_reprojectBbox_arr (fwd : JVal → JVal → ℚ × ℚ) (bs : List JVal) (o : JVal)
    (h : 4 ≤ bs.length) :
    JVal.getF (reprojectBbox fwd (.jarr bs) o) "bbox" =
      .jarr [.jnum (fwd (bs.getD 0 .jundef) (bs.getD 1 .jundef)).1,
             .jnum (fwd (bs.getD 0 .jundef) (bs.getD 1 .jundef)).2,
             .jnum (fwd (bs.getD 2 .jundef) (bs.getD 3 .jundef)).1,
             .jnum (fwd (bs.getD 2 .jundef) (bs.getD 3 .jundef)).2] := by
  simp only [reprojectBbox, if_pos h]
  exact JVal.getF_setField_self _ _ _

theorem getF_dropCrs_ne (o : JVal) (k : String) (h : k ≠ "crs") :
    JVal.getF (dropCrs o) k = JVal.getF o k := by
  simp only [dropCrs]
  split
  · rw [JVal.getF_delField_ne _ _ _ (by simpa using h.symm)]
  · rfl

theorem JVal.hasField_delField_ne (o : JVal) (k k2 : String) (h : k ≠ k2) :
    JVal.hasField (JVal.delField o k) k2 = JVal.hasField o k2 := by
  cases o with
  | jobj fs =>
    simp only [JVal.delField, JVal.hasField]
    induction fs with
    | nil => simp
    | cons p rest ih =>
      obtain ⟨k', v'⟩ := p
      by_cases hk : k' = k
      · subst hk
        simp [List.filter_cons, h, ih]
      · by_cases hk2 : k' = k2
        · subst hk2
          simp [List.filter_cons, hk, ih]
        · simp [List.filter_cons, hk, hk2, ih]
  | jundef => rfl
  | jnull => rfl
  | jbool b => rfl
  | jnum q => rfl
  | jstr s => rfl
  | jarr xs => rfl

theorem hasField_dropCrs_ne (o : JVal) (k : String) (h : k ≠ "crs") :
    JVal.hasField (dropCrs o) k = JVal.hasField o k := by
  simp only [dropCrs]
  split
  · exact JVal.hasField_delField_ne o "crs" k (Ne.symm h)
  · rfl

theorem hasField_dropCrs_of_truthy (o : JVal) (h : JVal.truthy (JVal.getF o "crs") = true) :
    JVal.hasField (dropCrs o) "crs" = false := by
  simp only [dropCrs, if_pos h]
  exact JVal.hasField_delField_self _ _

theorem mapMEx_ok {f : JVal → Except String JVal} {xs ys : List JVal}
    (h : mapMEx f xs = .ok ys) :
    ys.length = xs.length ∧
      ∀ i, i < xs.length → f (xs.getD i .jundef) = .ok (ys.getD i .jundef) := by
  induction xs generalizing ys with
  | nil =>
    rw [mapMEx] at h
    cases h
    simp
  | cons x rest ih =>
    rw [mapMEx] at h
    cases hx : f x with
    | error e => rw [hx] at h; cases h
    | ok y =>
      rw [hx] at h
      cases hr : mapMEx f rest with
      | error e => rw [hr] at h; cases h
      | ok ys' =>
        rw [hr] at h
        cases h
        obtain ⟨hlen, hpt⟩ := ih hr
        refine ⟨by simp [hlen], ?_⟩
        intro i hi
        cases i with
        | zero => simpa using hx
        | succ j =>
          simp only [List.getD_cons_succ]
          exact hpt j (by simpa using hi)

theorem transformGeometryList_ok {fwd : JVal → JVal → ℚ × ℚ} {gs ys : List JVal}
    (h : transformGeometryList fwd gs = .ok ys) :
    ys.length = gs.length ∧
      ∀ i, i < gs.length →
        transformGeometryTo4326 fwd (gs.getD i .jundef) = .ok (ys.getD i .jundef) := by
  induction gs generalizing ys with
  | nil =>
    rw [transformGeometryList] at h
    cases h
    simp
  | cons g rest ih =>
    rw [transformGeometryList] at h
    cases hx : transformGeometryTo4326 fwd g with
    | error e => rw [hx] at h; cases h
    | ok y =>
      rw [hx] at h
      cases hr : transformGeometryList fwd rest with
      | error e => rw [hr] at h; cases h
      | ok ys' =>
        rw [hr] at h
        cases h
        obtain ⟨hlen, hpt⟩ := ih hr
        refine ⟨by simp [hlen], ?_⟩
        intro i hi
        cases i with
        | zero => simpa using hx
        | succ j =>
          simp only [List.getD_cons_succ]
          exact hpt j (by simpa using hi)

theorem JVal.eq_jstr_of_tagIs {v : JVal} {s : String} (h : JVal.tagIs v s = true) :
    v = .jstr s := by
  cases v <;> simp [JVal.tagIs] at h
  simp [h]

/-- When the GeometryCollection guard fails, `transformGeometryTo4326` takes
the shallow-copy branch. -/
theorem transformGeometryTo4326_plain {fwd : JVal → JVal → ℚ × ℚ} {geom : JVal}
    (htr : JVal.truthy geom = true)
    (hngc : JVal.tagIs (JVal.getF geom "type") "GeometryCollection" = false ∨
      JVal.isArr (JVal.getF geom "geometries") = false) :
    transformGeometryTo4326 fwd geom = transformPlainGeometry fwd geom := by
  rw [transformGeometryTo4326]
  rw [if_neg (by simp [htr])]
  split
  · rename_i gs hg
    rcases hngc with hngc | hngc
    · rw [if_neg (by simp [hngc])]
    · rw [hg] at hngc
      simp [JVal.isArr] at hngc
  · rfl

/-- When the GeometryCollection guard holds and the transform succeeds, the
output is the rebuilt collection over a successfully transformed child list. -/
theorem transformGeometryTo4326_gc_ok {fwd : JVal → JVal → ℚ × ℚ} {geom out : JVal}
    {gs : List JVal}
    (htag : JVal.tagIs (JVal.getF geom "type") "GeometryCollection" = true)
    (hgs : JVal.getF geom "geometries" = .jarr gs)
    (hok : transformGeometryTo4326 fwd geom = .ok out) :
    ∃ ys, transformGeometryList fwd gs = .ok ys ∧
      out = .jobj [("type", .jstr "GeometryCollection"), ("geometries", .jarr ys)] := by
  have htr : JVal.truthy geom = true :=
    JVal.truthy_of_getF (JVal.eq_jstr_of_tagIs htag) (by simp)
  rw [transformGeometryTo4326] at hok
  rw [if_neg (by simp [htr])] at hok
  split at hok
  · rename_i gs' hg
    rw [hgs] at hg
    cases hg
    rw [if_pos htag] at hok
    cases hys : transformGeometryList fwd gs with
    | ok ys =>
      rw [hys] at hok
      cases hok
      exact ⟨ys, rfl, rfl⟩
    | error e =>
      rw [hys] at hok
      cases hok
  · rename_i hne
    rw [hgs] at hne
    exact absurd rfl (hne gs)

/-- When the Feature guard holds and the transform succeeds, the output is
the shallow copy with transformed geometry, reprojected bbox and dropped
truthy crs. -/
theorem transformFeatureTo4326_ok {fwd : JVal → JVal → ℚ × ℚ} {f out : JVal}
    (htag : JVal.tagIs (JVal.getF f "type") "Feature" = true)
    (hok : transformFeatureTo4326 fwd f = .ok out) :
    ∃ g, transformGeometryTo4326 fwd (JVal.getF f "geometry") = .ok g ∧
      out = dropCrs (reprojectBbox fwd (JVal.getF f "bbox") (JVal.setField f "geometry" g)) := by
  have htr : JVal.truthy f = true :=
    JVal.truthy_of_getF (JVal.eq_jstr_of_tagIs htag) (by simp)
  rw [transformFeatureTo4326] at hok
  rw [if_neg (by simp [htr, htag])] at hok
  cases hg : transformGeometryTo4326 fwd (JVal.getF f "geometry") with
  | ok g =>
    rw [hg] at hok
    cases hok
    exact ⟨g, rfl, rfl⟩
  | error e =>
    rw [hg] at hok
    cases hok

/-- When the FeatureCollection guard holds and the transform succeeds, the
output is the shallow copy with mapped features, reprojected bbox and dropped
truthy crs. -/
theorem transformFeatureCollectionTo4326_ok {fwd : JVal → JVal → ℚ × ℚ} {fc out : JVal}
    {xs : List JVal}
    (htag : JVal.tagIs (JVal.getF fc "type") "FeatureCollection" = true)
    (hxs : JVal.getF fc "features" = .jarr xs)
    (hok : transformFeatureCollectionTo4326 fwd fc = .ok out) :
    ∃ ys, mapMEx (transformFeatureTo4326 fwd) xs = .ok ys ∧
      out = dropCrs (reprojectBbox fwd (JVal.getF fc "bbox")
        (JVal.setField fc "features" (.jarr ys))) := by
  have htr : JVal.truthy fc = true :=
    JVal.truthy_of_getF (JVal.eq_jstr_of_tagIs htag) (by simp)
  rw [transformFeatureCollectionTo4326] at hok
  rw [if_neg (by simp [htr])] at hok
  split at hok
  · rename_i xs' hx
    rw [hxs] at hx
    cases hx
    rw [if_pos htag] at hok
    cases hys : mapMEx (transformFeatureTo4326 fwd) xs with
    | ok ys =>
      rw [hys] at hok
      cases hok
      exact ⟨ys, rfl, rfl⟩
    | error e =>
      rw [hys] at hok
      cases hok
  · rename_i hne
    rw [hxs] at hne
    exact absurd rfl (hne xs)

/-!
Claim theorems. Each claim theorem is stated over an arbitrary projection
`fwd`; witnesses instantiate it with the sample projection `fwdDemo`.
-/

/-- A concrete sample projection used to instantiate witnesses and
counterexamples: it shifts numeric coordinates and sends anything else to the
origin. -/
def fwdDemo : JVal → JVal → ℚ × ℚ
  | .jnum x, .jnum y => (x + 1, y + 2)
  | _, _ => (0, 0)

/-- C4: null input passes through unchanged through each of the three public
operations: the geometry, feature and feature-collection transforms all map
null to null. -/
theorem null_passthrough (fwd : JVal → JVal → ℚ × ℚ) :
    transformGeometryTo4326 fwd .jnull = .ok .jnull ∧
    transformFeatureTo4326 fwd .jnull = .ok .jnull ∧
    transformFeatureCollectionTo4326 fwd .jnull = .ok .jnull := by
  refine ⟨?_, ?_, ?_⟩
  · rw [transformGeometryTo4326]
    simp [JVal.truthy]
  · rw [transformFeatureTo4326]
    simp [JVal.truthy]
  · rw [transformFeatureCollectionTo4326]
    simp [JVal.truthy]

/-- C5: every input whose type tag is not the string Feature (null, a missing
tag, any other tag, or a non-object) is returned unchanged by the feature
transform, never an error. -/
theorem nonFeature_passthrough (fwd : JVal → JVal → ℚ × ℚ) (feature : JVal)
    (h : JVal.tagIs (JVal.getF feature "type") "Feature" = false) :
    transformFeatureTo4326 fwd feature = .ok feature := by
  rw [transformFeatureTo4326]
  rw [if_pos (Or.inr (by simp [h]))]

/-- Witness for C5 at the concrete non-Feature object of the spec. -/
theorem nonFeature_passthrough_witness :
    JVal.tagIs (JVal.getF (.jobj [("type", .jstr "NotAFeature")]) "type") "Feature" = false ∧
    transformFeatureTo4326 fwdDemo (.jobj [("type", .jstr "NotAFeature")]) =
      .ok (.jobj [("type", .jstr "NotAFeature")]) :=
  ⟨by decide, nonFeature_passthrough fwdDemo _ (by decide)⟩

/-- C6: for every tag outside the six handled geometry kinds (in particular
the GeometryCollection tag, any unknown string and any non-string value) and
every coordinate structure, transformCoords returns the coordinates unchanged
and does not fail. -/
theorem unknown_tag_passthrough (fwd : JVal → JVal → ℚ × ℚ) (ty coords : JVal)
    (h : JVal.tagIs ty "Point" = false ∧ JVal.tagIs ty "MultiPoint" = false ∧
      JVal.tagIs ty "LineString" = false ∧ JVal.tagIs ty "MultiLineString" = false ∧
      JVal.tagIs ty "Polygon" = false ∧ JVal.tagIs ty "MultiPolygon" = false) :
    transformCoords fwd ty coords = .ok coords := by
  obtain ⟨h1, h2, h3, h4, h5, h6⟩ := h
  rw [transformCoords]
  simp [h1, h2, h3, h4, h5, h6]

/-- Witness for C6 at the GeometryCollection tag with a sample coordinate
structure. -/
theorem unknown_tag_passthrough_witness :
    (JVal.tagIs (.jstr "GeometryCollection") "Point" = false ∧
      JVal.tagIs (.jstr "GeometryCollection") "MultiPoint" = false ∧
      JVal.tagIs (.jstr "GeometryCollection") "LineString" = false ∧
      JVal.tagIs (.jstr "GeometryCollection") "MultiLineString" = false ∧
      JVal.tagIs (.jstr "GeometryCollection") "Polygon" = false ∧
      JVal.tagIs (.jstr "GeometryCollection") "MultiPolygon" = false) ∧
    transformCoords fwdDemo (.jstr "GeometryCollection") (.jarr [.jnum 3]) =
      .ok (.jarr [.jnum 3]) :=
  ⟨by decide, unknown_tag_passthrough fwdDemo _ _ (by decide)⟩

/-- C8: for every Position of length 2, and every Position of length 3 whose
third entry is defined, the transformed position is an array of the same
length whose third entry (when present) is the untouched input entry; the
function is a pure Lean function, hence deterministic and side-effect free. -/
theorem position_arity (fwd : JVal → JVal → ℚ × ℚ) (xs : List JVal)
    (h : xs.length = 2 ∨ (xs.length = 3 ∧ JVal.isUndef (xs.getD 2 .jundef) = false)) :
    ∃ ys : List JVal, transformPosition fwd (.jarr xs) = .ok (.jarr ys) ∧
      ys.length = xs.length ∧ ys.getD 2 .jundef = xs.getD 2 .jundef := by
  rcases h with h2 | ⟨h3, hz⟩
  · obtain ⟨a, b, rfl⟩ := List.length_eq_two.mp h2
    refine ⟨[.jnum (fwd a b).1, .jnum (fwd a b).2], ?_, by simp, by simp⟩
    rw [transformPosition]
    simp [JVal.isUndef]
  · obtain ⟨a, b, c, rfl⟩ := List.length_eq_three.mp h3
    refine ⟨[.jnum (fwd a b).1, .jnum (fwd a b).2, c], ?_, by simp, by simp⟩
    rw [transformPosition]
    simp only [List.getD]
    rw [if_neg (by simpa using hz)]
    simp

/-- Witness for C8 at a concrete three-component position. -/
theorem position_arity_witness :
    (([JVal.jnum 1, JVal.jnum 2, JVal.jnum 5] : List JVal).length = 2 ∨
      (([JVal.jnum 1, JVal.jnum 2, JVal.jnum 5] : List JVal).length = 3 ∧
        JVal.isUndef (([JVal.jnum 1, JVal.jnum 2, JVal.jnum 5] :
          List JVal).getD 2 .jundef) = false)) ∧
    ∃ ys : List JVal,
      transformPosition fwdDemo (.jarr [.jnum 1, .jnum 2, .jnum 5]) = .ok (.jarr ys) ∧
      ys.length = ([JVal.jnum 1, JVal.jnum 2, JVal.jnum 5] : List JVal).length ∧
      ys.getD 2 .jundef = ([JVal.jnum 1, JVal.jnum 2, JVal.jnum 5] :
        List JVal).getD 2 .jundef :=
  ⟨by decide, position_arity fwdDemo [.jnum 1, .jnum 2, .jnum 5] (by decide)⟩

/-- C7: for every value tagged GeometryCollection whose geometries field is an
array, a successful transform returns a GeometryCollection whose geometries
array has the same length, the entry at each index being the transform of the
input entry at that index. -/
theorem gc_recursion (fwd : JVal → JVal → ℚ × ℚ) (geom out : JVal) (gs : List JVal)
    (htag : JVal.tagIs (JVal.getF geom "type") "GeometryCollection" = true)
    (hgs : JVal.getF geom "geometries" = .jarr gs)
    (hok : transformGeometryTo4326 fwd geom = .ok out) :
    ∃ ys : List JVal,
      out = .jobj [("type", .jstr "GeometryCollection"), ("geometries", .jarr ys)] ∧
      ys.length = gs.length ∧
      ∀ i, i < gs.length →
        transformGeometryTo4326 fwd (gs.getD i .jundef) = .ok (ys.getD i .jundef) := by
  obtain ⟨ys, hys, rfl⟩ := transformGeometryTo4326_gc_ok htag hgs hok
  obtain ⟨hlen, hpt⟩ := transformGeometryList_ok hys
  exact ⟨ys, rfl, hlen, hpt⟩

/-- The children of the C7 witness collection: one Point and one Polygon. -/
def gcDemoKids : List JVal :=
  [.jobj [("type", .jstr "Point"), ("coordinates", .jarr [.jnum 0, .jnum 0])],
   .jobj [("type", .jstr "Polygon"),
          ("coordinates", .jarr [.jarr [.jarr [.jnum 0, .jnum 0]]])]]

/-- The transformed children of the C7 witness collection under the sample
projection. -/
def gcDemoKidsOut : List JVal :=
  [.jobj [("type", .jstr "Point"), ("coordinates", .jarr [.jnum 1, .jnum 2])],
   .jobj [("type", .jstr "Polygon"),
          ("coordinates", .jarr [.jarr [.jarr [.jnum 1, .jnum 2]]])]]

/-- A GeometryCollection holding one Point and one Polygon, for the C7
witness. -/
def gcDemo : JVal :=
  .jobj [("type", .jstr "GeometryCollection"), ("geometries", .jarr gcDemoKids)]

/-- The image of `gcDemo` under the transform at the sample projection. -/
def gcDemoOut : JVal :=
  .jobj [("type", .jstr "GeometryCollection"), ("geometries", .jarr gcDemoKidsOut)]

/-- Witness for C7 at `gcDemo`. -/
theorem gc_recursion_witness :
    (JVal.tagIs (JVal.getF gcDemo "type") "GeometryCollection" = true ∧
      JVal.getF gcDemo "geometries" = .jarr gcDemoKids ∧
      transformGeometryTo4326 fwdDemo gcDemo = .ok gcDemoOut) ∧
    ∃ ys : List JVal,
      gcDemoOut = .jobj [("type", .jstr "GeometryCollection"), ("geometries", .jarr ys)] ∧
      ys.length = gcDemoKids.length ∧
      ∀ i, i < gcDemoKids.length →
        transformGeometryTo4326 fwdDemo (gcDemoKids.getD i .jundef) =
          .ok (ys.getD i .jundef) := by
  have hok : transformGeometryTo4326 fwdDemo gcDemo = .ok gcDemoOut := by
    simp [gcDemo, gcDemoOut, gcDemoKids, gcDemoKidsOut, transformGeometryTo4326,
      transformGeometryList, transformPlainGeometry, transformCoords, transformPosition,
      mapExceptArr, mapMEx, JVal.truthy, JVal.getF, JVal.lookupF, JVal.tagIs, JVal.isUndef,
      JVal.setField, JVal.setFields, fwdDemo]
  exact ⟨⟨rfl, rfl, hok⟩, gc_recursion fwdDemo gcDemo gcDemoOut gcDemoKids rfl rfl hok⟩

/-- A GeometryCollection carrying an extra bbox field, refuting the claim that
the geometry transform preserves every field other than coordinates and
geometries. -/
def gcExtraIn : JVal :=
  .jobj [("type", .jstr "GeometryCollection"), ("geometries", .jarr []),
         ("bbox", .jstr "B")]

/-- The image of `gcExtraIn`: the rebuilt collection drops the bbox field. -/
def gcExtraOut : JVal :=
  .jobj [("type", .jstr "GeometryCollection"), ("geometries", .jarr [])]

/-- Counterexample for C2: the GeometryCollection branch rebuilds the object
from only the tag and the children, so an extra bbox field present on the
input is absent from the output. -/
theorem gc_drops_extra_fields_cex :
    transformGeometryTo4326 fwdDemo gcExtraIn = .ok gcExtraOut ∧
    JVal.hasField gcExtraIn "bbox" = true ∧
    JVal.hasField gcExtraOut "bbox" = false := by
  refine ⟨?_, by decide, by decide⟩
  simp [gcExtraIn, gcExtraOut, transformGeometryTo4326, transformGeometryList,
    JVal.truthy, JVal.getF, JVal.lookupF, JVal.tagIs]

/-- C2 amended: whenever the transform takes the shallow-copy branch (the
input is truthy and is not a GeometryCollection with an array geometries
field), every field other than coordinates keeps its value and its presence
in the output. (The GeometryCollection branch instead rebuilds the object
from only the tag and the children, dropping every other field, as the
counterexample shows.) -/
theorem plain_geometry_preserves_fields (fwd : JVal → JVal → ℚ × ℚ) (geom out : JVal)
    (k : String) (htr : JVal.truthy geom = true)
    (hngc : JVal.tagIs (JVal.getF geom "type") "GeometryCollection" = false ∨
      JVal.isArr (JVal.getF geom "geometries") = false)
    (hok : transformGeometryTo4326 fwd geom = .ok out) (hk : k ≠ "coordinates") :
    JVal.getF out k = JVal.getF geom k ∧ JVal.hasField out k = JVal.hasField geom k := by
  rw [transformGeometryTo4326_plain htr hngc, transformPlainGeometry] at hok
  cases hc : transformCoords fwd (JVal.getF geom "type") (JVal.getF geom "coordinates") with
  | ok c =>
    rw [hc] at hok
    cases hok
    exact ⟨JVal.getF_setField_ne _ _ _ _ (Ne.symm hk),
      JVal.hasField_setField_ne _ _ _ _ (Ne.symm hk)⟩
  | error e =>
    rw [hc] at hok
    cases hok

/-- A Point geometry with an extra id field, for the C2 witness. -/
def pointExtraIn : JVal :=
  .jobj [("type", .jstr "Point"), ("coordinates", .jarr [.jnum 0, .jnum 0]),
         ("id", .jnum 7)]

/-- The image of `pointExtraIn` under the sample projection. -/
def pointExtraOut : JVal :=
  .jobj [("type", .jstr "Point"), ("coordinates", .jarr [.jnum 1, .jnum 2]),
         ("id", .jnum 7)]

/-- Witness for the amended C2 at `pointExtraIn` and the id field. -/
theorem plain_geometry_preserves_fields_witness :
    (JVal.truthy pointExtraIn = true ∧
      (JVal.tagIs (JVal.getF pointExtraIn "type") "GeometryCollection" = false ∨
        JVal.isArr (JVal.getF pointExtraIn "geometries") = false) ∧
      transformGeometryTo4326 fwdDemo pointExtraIn = .ok pointExtraOut ∧
      "id" ≠ "coordinates") ∧
    JVal.getF pointExtraOut "id" = JVal.getF pointExtraIn "id" ∧
    JVal.hasField pointExtraOut "id" = JVal.hasField pointExtraIn "id" := by
  have hok : transformGeometryTo4326 fwdDemo pointExtraIn = .ok pointExtraOut := by
    simp [pointExtraIn, pointExtraOut, transformGeometryTo4326, transformPlainGeometry,
      transformCoords, transformPosition, JVal.truthy, JVal.getF, JVal.lookupF,
      JVal.tagIs, JVal.isUndef, JVal.setField, JVal.setFields, fwdDemo]
  exact ⟨⟨rfl, Or.inl rfl, hok, by decide⟩,
    plain_geometry_preserves_fields fwdDemo pointExtraIn pointExtraOut "id" rfl
      (Or.inl rfl) hok (by decide)⟩

/-- A Feature whose crs field holds null, a falsy value. -/
def crsNullIn : JVal := .jobj [("type", .jstr "Feature"), ("crs", .jnull)]

/-- The image of `crsNullIn`: the crs field survives because the deletion is
guarded by truthiness. -/
def crsNullOut : JVal :=
  .jobj [("type", .jstr "Feature"), ("crs", .jnull), ("geometry", .jundef)]

/-- Counterexample for C3: a Feature carrying `crs: null` keeps its crs field
in the output, because the code deletes crs only when its value is truthy. -/
theorem crs_falsy_kept_cex :
    transformFeatureTo4326 fwdDemo crsNullIn = .ok crsNullOut ∧
    JVal.hasField crsNullOut "crs" = true := by
  refine ⟨?_, by decide⟩
  have hnull : transformGeometryTo4326 fwdDemo JVal.jundef = .ok JVal.jundef := by
    rw [transformGeometryTo4326]
    simp [JVal.truthy]
  rw [transformFeatureTo4326]
  rw [if_neg (by simp [crsNullIn, JVal.truthy, JVal.getF, JVal.lookupF, JVal.tagIs])]
  simp only [crsNullIn] at hnull ⊢
  simp [hnull, JVal.getF, JVal.lookupF, JVal.setField, JVal.setFields, reprojectBbox,
    dropCrs, JVal.truthy, crsNullOut]

/-- C3 amended: a Feature (or a FeatureCollection with an array features
field) whose crs field holds a truthy value has no crs field in the output;
a falsy crs value (null, false, 0, the empty string) is kept, as the
counterexample shows. -/
theorem crs_removed_when_truthy (fwd : JVal → JVal → ℚ × ℚ) (f fc out out2 : JVal)
    (xs : List JVal)
    (hf : JVal.tagIs (JVal.getF f "type") "Feature" = true)
    (hfcrs : JVal.truthy (JVal.getF f "crs") = true)
    (hok : transformFeatureTo4326 fwd f = .ok out)
    (hfc : JVal.tagIs (JVal.getF fc "type") "FeatureCollection" = true)
    (hxs : JVal.getF fc "features" = .jarr xs)
    (hfccrs : JVal.truthy (JVal.getF fc "crs") = true)
    (hok2 : transformFeatureCollectionTo4326 fwd fc = .ok out2) :
    JVal.hasField out "crs" = false ∧ JVal.hasField out2 "crs" = false := by
  constructor
  · obtain ⟨g, hg, rfl⟩ := transformFeatureTo4326_ok hf hok
    apply hasField_dropCrs_of_truthy
    rw [getF_reprojectBbox_ne _ _ _ _ (by decide)]
    rw [JVal.getF_setField_ne _ _ _ _ (by decide)]
    exact hfcrs
  · obtain ⟨ys, hys, rfl⟩ := transformFeatureCollectionTo4326_ok hfc hxs hok2
    apply hasField_dropCrs_of_truthy
    rw [getF_reprojectBbox_ne _ _ _ _ (by decide)]
    rw [JVal.getF_setField_ne _ _ _ _ (by decide)]
    exact hfccrs

/-- A Feature with a truthy crs value, for the C3 witness. -/
def crsFeatIn : JVal := .jobj [("type", .jstr "Feature"), ("crs", .jstr "EPSG:3857")]

/-- The image of `crsFeatIn`: crs deleted, geometry field appended. -/
def crsFeatOut : JVal := .jobj [("type", .jstr "Feature"), ("geometry", .jundef)]

/-- A FeatureCollection with a truthy crs value, for the C3 witness. -/
def crsFCIn : JVal :=
  .jobj [("type", .jstr "FeatureCollection"), ("features", .jarr []),
         ("crs", .jstr "EPSG:3857")]

/-- The image of `crsFCIn`: crs deleted. -/
def crsFCOut : JVal :=
  .jobj [("type", .jstr "FeatureCollection"), ("features", .jarr [])]

/-- Witness for the amended C3 at `crsFeatIn` and `crsFCIn`. -/
theorem crs_removed_when_truthy_witness :
    (JVal.tagIs (JVal.getF crsFeatIn "type") "Feature" = true ∧
      JVal.truthy (JVal.getF crsFeatIn "crs") = true ∧
      transformFeatureTo4326 fwdDemo crsFeatIn = .ok crsFeatOut ∧
      JVal.tagIs (JVal.getF crsFCIn "type") "FeatureCollection" = true ∧
      JVal.getF crsFCIn "features" = .jarr [] ∧
      JVal.truthy (JVal.getF crsFCIn "crs") = true ∧
      transformFeatureCollectionTo4326 fwdDemo crsFCIn = .ok crsFCOut) ∧
    JVal.hasField crsFeatOut "crs" = false ∧ JVal.hasField crsFCOut "crs" = false := by
  have hnull : transformGeometryTo4326 fwdDemo JVal.jundef = .ok JVal.jundef := by
    rw [transformGeometryTo4326]
    simp [JVal.truthy]
  have hokF : transformFeatureTo4326 fwdDemo crsFeatIn = .ok crsFeatOut := by
    rw [transformFeatureTo4326]
    rw [if_neg (by simp [crsFeatIn, JVal.truthy, JVal.getF, JVal.lookupF, JVal.tagIs])]
    simp only [crsFeatIn] at hnull ⊢
    simp [hnull, JVal.getF, JVal.lookupF, JVal.setField, JVal.setFields, reprojectBbox,
      dropCrs, JVal.truthy, JVal.delField, List.filter_cons, crsFeatOut]
  have hokC : transformFeatureCollectionTo4326 fwdDemo crsFCIn = .ok crsFCOut := by
    rw [transformFeatureCollectionTo4326]
    simp [crsFCIn, crsFCOut, mapMEx, JVal.truthy, JVal.getF, JVal.lookupF, JVal.tagIs,
      JVal.setField, JVal.setFields, reprojectBbox, dropCrs, JVal.delField,
      List.filter_cons]
  exact ⟨⟨rfl, rfl, hokF, rfl, rfl, rfl, hokC⟩,
    crs_removed_when_truthy fwdDemo crsFeatIn crsFCIn crsFeatOut crsFCOut []
      rfl rfl hokF rfl rfl rfl hokC⟩

/-- The bbox of a successfully transformed Feature with an array bbox of
length at least four: the four-element corner reprojection. -/
theorem transformFeature_bbox {fwd : JVal → JVal → ℚ × ℚ} {f out : JVal} {bs : List JVal}
    (hf : JVal.tagIs (JVal.getF f "type") "Feature" = true)
    (hbb : JVal.getF f "bbox" = .jarr bs) (hlen : 4 ≤ bs.length)
    (hok : transformFeatureTo4326 fwd f = .ok out) :
    JVal.getF out "bbox" =
      .jarr [.jnum (fwd (bs.getD 0 .jundef) (bs.getD 1 .jundef)).1,
             .jnum (fwd (bs.getD 0 .jundef) (bs.getD 1 .jundef)).2,
             .jnum (fwd (bs.getD 2 .jundef) (bs.getD 3 .jundef)).1,
             .jnum (fwd (bs.getD 2 .jundef) (bs.getD 3 .jundef)).2] := by
  obtain ⟨g, hg, rfl⟩ := transformFeatureTo4326_ok hf hok
  rw [getF_dropCrs_ne _ _ (by decide), hbb, getF_reprojectBbox_arr _ _ _ hlen]

/-- The bbox of a successfully transformed FeatureCollection with an array
bbox of length at least four: the four-element corner reprojection. -/
theorem transformFC_bbox {fwd : JVal → JVal → ℚ × ℚ} {fc out : JVal} {xs bs : List JVal}
    (hfc : JVal.tagIs (JVal.getF fc "type") "FeatureCollection" = true)
    (hxs : JVal.getF fc "features" = .jarr xs)
    (hbb : JVal.getF fc "bbox" = .jarr bs) (hlen : 4 ≤ bs.length)
    (hok : transformFeatureCollectionTo4326 fwd fc = .ok out) :
    JVal.getF out "bbox" =
      .jarr [.jnum (fwd (bs.getD 0 .jundef) (bs.getD 1 .jundef)).1,
             .jnum (fwd (bs.getD 0 .jundef) (bs.getD 1 .jundef)).2,
             .jnum (fwd (bs.getD 2 .jundef) (bs.getD 3 .jundef)).1,
             .jnum (fwd (bs.getD 2 .jundef) (bs.getD 3 .jundef)).2] := by
  obtain ⟨ys, hys, rfl⟩ := transformFeatureCollectionTo4326_ok hfc hxs hok
  rw [getF_dropCrs_ne _ _ (by decide), hbb, getF_reprojectBbox_arr _ _ _ hlen]

/-- C9: for a Feature and for a FeatureCollection whose bbox is a four-number
array, a successful transform rewrites the bbox as the four-element array of
the projected low corner followed by the projected high corner, in that
order. -/
theorem bbox_corner_reprojection (fwd : JVal → JVal → ℚ × ℚ) (f fc out out2 : JVal)
    (xs : List JVal) (a b c d a2 b2 c2 d2 : ℚ)
    (hf : JVal.tagIs (JVal.getF f "type") "Feature" = true)
    (hfb : JVal.getF f "bbox" = .jarr [.jnum a, .jnum b, .jnum c, .jnum d])
    (hok : transformFeatureTo4326 fwd f = .ok out)
    (hfc : JVal.tagIs (JVal.getF fc "type") "FeatureCollection" = true)
    (hxs : JVal.getF fc "features" = .jarr xs)
    (hfcb : JVal.getF fc "bbox" = .jarr [.jnum a2, .jnum b2, .jnum c2, .jnum d2])
    (hok2 : transformFeatureCollectionTo4326 fwd fc = .ok out2) :
    JVal.getF out "bbox" =
      .jarr [.jnum (fwd (.jnum a) (.jnum b)).1, .jnum (fwd (.jnum a) (.jnum b)).2,
             .jnum (fwd (.jnum c) (.jnum d)).1, .jnum (fwd (.jnum c) (.jnum d)).2] ∧
    JVal.getF out2 "bbox" =
      .jarr [.jnum (fwd (.jnum a2) (.jnum b2)).1, .jnum (fwd (.jnum a2) (.jnum b2)).2,
             .jnum (fwd (.jnum c2) (.jnum d2)).1, .jnum (fwd (.jnum c2) (.jnum d2)).2] := by
  constructor
  · simpa using transformFeature_bbox hf hfb (by simp) hok
  · simpa using transformFC_bbox hfc hxs hfcb (by simp) hok2

/-- C10: for a Feature and for a FeatureCollection whose bbox is an array of
length strictly greater than four, a successful transform still reprojects it
and the output bbox is exactly four elements built from the first four
entries; the entries past the first four are dropped. -/
theorem bbox_truncated_to_four (fwd : JVal → JVal → ℚ × ℚ) (f fc out out2 : JVal)
    (xs bs bs2 : List JVal)
    (hf : JVal.tagIs (JVal.getF f "type") "Feature" = true)
    (hfb : JVal.getF f "bbox" = .jarr bs) (hlen : 4 < bs.length)
    (hok : transformFeatureTo4326 fwd f = .ok out)
    (hfc : JVal.tagIs (JVal.getF fc "type") "FeatureCollection" = true)
    (hxs : JVal.getF fc "features" = .jarr xs)
    (hfcb : JVal.getF fc "bbox" = .jarr bs2) (hlen2 : 4 < bs2.length)
    (hok2 : transformFeatureCollectionTo4326 fwd fc = .ok out2) :
    JVal.getF out "bbox" =
      .jarr [.jnum (fwd (bs.getD 0 .jundef) (bs.getD 1 .jundef)).1,
             .jnum (fwd (bs.getD 0 .jundef) (bs.getD 1 .jundef)).2,
             .jnum (fwd (bs.getD 2 .jundef) (bs.getD 3 .jundef)).1,
             .jnum (fwd (bs.getD 2 .jundef) (bs.getD 3 .jundef)).2] ∧
    JVal.getF out2 "bbox" =
      .jarr [.jnum (fwd (bs2.getD 0 .jundef) (bs2.getD 1 .jundef)).1,
             .jnum (fwd (bs2.getD 0 .jundef) (bs2.getD 1 .jundef)).2,
             .jnum (fwd (bs2.getD 2 .jundef) (bs2.getD 3 .jundef)).1,
             .jnum (fwd (bs2.getD 2 .jundef) (bs2.getD 3 .jundef)).2] :=
  ⟨transformFeature_bbox hf hfb (le_of_lt hlen) hok,
   transformFC_bbox hfc hxs hfcb (le_of_lt hlen2) hok2⟩

/-- A Feature with a four-number bbox, for the C9 witness. -/
def bboxFeatIn : JVal :=
  .jobj [("type", .jstr "Feature"), ("bbox", .jarr [.jnum 0, .jnum 0, .jnum 0, .jnum 0])]

/-- The image of `bboxFeatIn` under the sample projection. -/
def bboxFeatOut : JVal :=
  .jobj [("type", .jstr "Feature"), ("bbox", .jarr [.jnum 1, .jnum 2, .jnum 1, .jnum 2]),
         ("geometry", .jundef)]

/-- A FeatureCollection with a four-number bbox, for the C9 witness. -/
def bboxFCIn : JVal :=
  .jobj [("type", .jstr "FeatureCollection"), ("features", .jarr []),
         ("bbox", .jarr [.jnum 0, .jnum 0, .jnum 0, .jnum 0])]

/-- The image of `bboxFCIn` under the sample projection. -/
def bboxFCOut : JVal :=
  .jobj [("type", .jstr "FeatureCollection"), ("features", .jarr []),
         ("bbox", .jarr [.jnum 1, .jnum 2, .jnum 1, .jnum 2])]

/-- Witness for C9 at `bboxFeatIn` and `bboxFCIn`. -/
theorem bbox_corner_reprojection_witness :
    (JVal.tagIs (JVal.getF bboxFeatIn "type") "Feature" = true ∧
      JVal.getF bboxFeatIn "bbox" = .jarr [.jnum 0, .jnum 0, .jnum 0, .jnum 0] ∧
      transformFeatureTo4326 fwdDemo bboxFeatIn = .ok bboxFeatOut ∧
      JVal.tagIs (JVal.getF bboxFCIn "type") "FeatureCollection" = true ∧
      JVal.getF bboxFCIn "features" = .jarr [] ∧
      JVal.getF bboxFCIn "bbox" = .jarr [.jnum 0, .jnum 0, .jnum 0, .jnum 0] ∧
      transformFeatureCollectionTo4326 fwdDemo bboxFCIn = .ok bboxFCOut) ∧
    JVal.getF bboxFeatOut "bbox" =
      .jarr [.jnum (fwdDemo (.jnum 0) (.jnum 0)).1, .jnum (fwdDemo (.jnum 0) (.jnum 0)).2,
             .jnum (fwdDemo (.jnum 0) (.jnum 0)).1, .jnum (fwdDemo (.jnum 0) (.jnum 0)).2] ∧
    JVal.getF bboxFCOut "bbox" =
      .jarr [.jnum (fwdDemo (.jnum 0) (.jnum 0)).1, .jnum (fwdDemo (.jnum 0) (.jnum 0)).2,
             .jnum (fwdDemo (.jnum 0) (.jnum 0)).1, .jnum (fwdDemo (.jnum 0) (.jnum 0)).2] := by
  have hnull : transformGeometryTo4326 fwdDemo JVal.jundef = .ok JVal.jundef := by
    rw [transformGeometryTo4326]
    simp [JVal.truthy]
  have hokF : transformFeatureTo4326 fwdDemo bboxFeatIn = .ok bboxFeatOut := by
    rw [transformFeatureTo4326]
    rw [if_neg (by simp [bboxFeatIn, JVal.truthy, JVal.getF, JVal.lookupF, JVal.tagIs])]
    simp only [bboxFeatIn] at hnull ⊢
    simp [hnull, JVal.getF, JVal.lookupF, JVal.setField, JVal.setFields, reprojectBbox,
      dropCrs, JVal.truthy, fwdDemo, bboxFeatOut]
  have hokC : transformFeatureCollectionTo4326 fwdDemo bboxFCIn = .ok bboxFCOut := by
    rw [transformFeatureCollectionTo4326]
    simp [bboxFCIn, bboxFCOut, mapMEx, JVal.truthy, JVal.getF, JVal.lookupF, JVal.tagIs,
      JVal.setField, JVal.setFields, reprojectBbox, dropCrs, fwdDemo]
  exact ⟨⟨rfl, rfl, hokF, rfl, rfl, rfl, hokC⟩,
    bbox_corner_reprojection fwdDemo bboxFeatIn bboxFCIn bboxFeatOut bboxFCOut []
      0 0 0 0 0 0 0 0 rfl rfl hokF rfl rfl rfl hokC⟩

/-- A Feature with a six-number bbox, for the C10 witness. -/
def bbox6FeatIn : JVal :=
  .jobj [("type", .jstr "Feature"),
         ("bbox", .jarr [.jnum 0, .jnum 0, .jnum 0, .jnum 0, .jnum 9, .jnum 9])]

/-- The image of `bbox6FeatIn`: the output bbox has exactly four elements. -/
def bbox6FeatOut : JVal :=
  .jobj [("type", .jstr "Feature"), ("bbox", .jarr [.jnum 1, .jnum 2, .jnum 1, .jnum 2]),
         ("geometry", .jundef)]

/-- A FeatureCollection with a six-number bbox, for the C10 witness. -/
def bbox6FCIn : JVal :=
  .jobj [("type", .jstr "FeatureCollection"), ("features", .jarr []),
         ("bbox", .jarr [.jnum 0, .jnum 0, .jnum 0, .jnum 0, .jnum 9, .jnum 9])]

/-- The image of `bbox6FCIn`: the output bbox has exactly four elements. -/
def bbox6FCOut : JVal :=
  .jobj [("type", .jstr "FeatureCollection"), ("features", .jarr []),
         ("bbox", .jarr [.jnum 1, .jnum 2, .jnum 1, .jnum 2])]

/-- Witness for C10 at `bbox6FeatIn` and `bbox6FCIn`. -/
theorem bbox_truncated_to_four_witness :
    (JVal.tagIs (JVal.getF bbox6FeatIn "type") "Feature" = true ∧
      JVal.getF bbox6FeatIn "bbox" =
        .jarr [.jnum 0, .jnum 0, .jnum 0, .jnum 0, .jnum 9, .jnum 9] ∧
      4 < ([JVal.jnum 0, JVal.jnum 0, JVal.jnum 0, JVal.jnum 0, JVal.jnum 9,
        JVal.jnum 9] : List JVal).length ∧
      transformFeatureTo4326 fwdDemo bbox6FeatIn = .ok bbox6FeatOut ∧
      JVal.tagIs (JVal.getF bbox6FCIn "type") "FeatureCollection" = true ∧
      JVal.getF bbox6FCIn "features" = .jarr [] ∧
      JVal.getF bbox6FCIn "bbox" =
        .jarr [.jnum 0, .jnum 0, .jnum 0, .jnum 0, .jnum 9, .jnum 9] ∧
      transformFeatureCollectionTo4326 fwdDemo bbox6FCIn = .ok bbox6FCOut) ∧
    JVal.getF bbox6FeatOut "bbox" =
      .jarr [.jnum 1, .jnum 2, .jnum 1, .jnum 2] ∧
    JVal.getF bbox6FCOut "bbox" =
      .jarr [.jnum 1, .jnum 2, .jnum 1, .jnum 2] := by
  have hnull : transformGeometryTo4326 fwdDemo JVal.jundef = .ok JVal.jundef := by
    rw [transformGeometryTo4326]
    simp [JVal.truthy]
  have hokF : transformFeatureTo4326 fwdDemo bbox6FeatIn = .ok bbox6FeatOut := by
    rw [transformFeatureTo4326]
    rw [if_neg (by simp [bbox6FeatIn, JVal.truthy, JVal.getF, JVal.lookupF, JVal.tagIs])]
    simp only [bbox6FeatIn] at hnull ⊢
    simp [hnull, JVal.getF, JVal.lookupF, JVal.setField, JVal.setFields, reprojectBbox,
      dropCrs, JVal.truthy, fwdDemo, bbox6FeatOut]
  have hokC : transformFeatureCollectionTo4326 fwdDemo bbox6FCIn = .ok bbox6FCOut := by
    rw [transformFeatureCollectionTo4326]
    simp [bbox6FCIn, bbox6FCOut, mapMEx, JVal.truthy, JVal.getF, JVal.lookupF, JVal.tagIs,
      JVal.setField, JVal.setFields, reprojectBbox, dropCrs, fwdDemo]
  have h := bbox_truncated_to_four fwdDemo bbox6FeatIn bbox6FCIn bbox6FeatOut bbox6FCOut
    [] [JVal.jnum 0, JVal.jnum 0, JVal.jnum 0, JVal.jnum 0, JVal.jnum 9, JVal.jnum 9]
    [JVal.jnum 0, JVal.jnum 0, JVal.jnum 0, JVal.jnum 0, JVal.jnum 9, JVal.jnum 9]
    rfl rfl (by simp) hokF rfl rfl rfl (by simp) hokC
  refine ⟨⟨rfl, rfl, by simp, hokF, rfl, rfl, rfl, hokC⟩, ?_, ?_⟩
  · simpa [fwdDemo] using h.1
  · simpa [fwdDemo] using h.2

/-- A Feature whose geometry is a Point away from the origin, as produced by
the upstream extraction step. -/
def framedFeature : JVal :=
  .jobj [("type", .jstr "Feature"),
         ("geometry", .jobj [("type", .jstr "Point"),
                             ("coordinates", .jarr [.jnum 1000000, .jnum 2000000])])]

/-- The upstream framing, an object with a numeric count field and a features
array, around `framedFeature`: it carries no type tag. -/
def framedPayload : JVal :=
  .jobj [("count", .jnum 1), ("features", .jarr [framedFeature])]

/-- C1 evidence: the sowingmap payload framing of a count field and a
features array is
returned by `transformFeatureCollectionTo4326` completely unchanged (it
matches none of the recognized shapes, so the permissive fallback returns the
input), even though the feature transform would have rewritten the contained
coordinates; the endpoint therefore responds with untransformed source
coordinates whenever the extraction script emits this framing. -/
theorem framed_payload_not_transformed :
    transformFeatureCollectionTo4326 fwdDemo framedPayload = .ok framedPayload ∧
    transformFeatureTo4326 fwdDemo framedFeature ≠ .ok framedFeature := by
  constructor
  · rw [transformFeatureCollectionTo4326]
    simp [framedPayload, framedFeature, transformFCFallback, JVal.truthy, JVal.getF,
      JVal.lookupF, JVal.tagIs]
  · intro h
    rw [transformFeatureTo4326] at h
    rw [if_neg (by simp [framedFeature, JVal.truthy, JVal.getF, JVal.lookupF,
      JVal.tagIs])] at h
    rw [show JVal.getF framedFeature "geometry" =
        .jobj [("type", .jstr "Point"),
               ("coordinates", .jarr [.jnum 1000000, .jnum 2000000])] from rfl] at h
    rw [transformGeometryTo4326] at h
    simp [transformPlainGeometry, transformCoords, transformPosition, JVal.truthy,
      JVal.getF, JVal.lookupF, JVal.tagIs, JVal.isUndef, JVal.setField, JVal.setFields,
      fwdDemo, reprojectBbox, dropCrs, framedFeature] at h
